import Mathlib

/-!
# mfmg: deal.II operator layer (`include/mfmg/dealii_operator.templates.hpp`)

A shallow embedding of the four operator classes of the file:
`DealIIMatrixOperator`, `DealIITrilinosMatrixOperator`, `DealIISmootherOperator`
and `DealIIDirectOperator`.

Conventions of the embedding.

* Scalars are rationals (exact arithmetic); a vector of length `n` is a function
  `Fin n → ℚ`; a sparse matrix is a Mathlib `Matrix`, its stored entries being the
  nonzero ones.
* A `std::shared_ptr` / `std::unique_ptr` is an `Option`: `none` is the null handle.
  Dereferencing a null handle is undefined behaviour in the source; the embedding
  returns `none` there (`Error.UndefinedBehaviour` in a function that can also throw).
* `size_t` is a natural number below `2 ^ 64`; an addition into a `size_t` wraps.
* A `double` is an IEEE 754 binary64 value: a finite value is the rational it denotes, and
  a product is the exact product rounded to nearest, ties to even (`double.mul`). A
  conversion of a `double` whose truncation is not a `size_t` value is undefined.
* A thrown exception is `Except.error`.
* The numerical kernels of the external libraries (deal.II, Trilinos, ML) that the
  file only calls are either given by their reference definition (`vmult`, `mmult`,
  point Jacobi) or taken as parameters (`SmootherLibrary`, `CoarseLibrary`).
-/

namespace mfmg

/-! ## Errors -/

/-- The error kinds of the operator layer. `UndefinedBehaviour` is not an exception of the
source: it marks the executions that the source leaves undefined (a null handle is
dereferenced) in the functions that can also throw. -/
inductive Error where
  | ConfigurationError (message : String)
  | CapabilityNotSupported
  | PreconditionViolation (message : String)
  | UndefinedBehaviour
  deriving DecidableEq, Repr

/-- Modelled from the spec: the macro `ASSERT` (declared in `mfmg/exceptions.hpp`, which is
not part of the translated file) checks a required handle at construction and raises a
`PreconditionViolation` carrying the message when the condition is false. -/
def ASSERT (condition : Bool) (message : String) : Except Error Unit :=
  if condition then .ok () else .error (.PreconditionViolation message)

/-- Modelled from the spec: the macro `ASSERT_THROW` (declared in `mfmg/exceptions.hpp`) is used
by the two string-driven constructors and raises a `ConfigurationError` carrying the message
when the condition is false. -/
def ASSERT_THROW (condition : Bool) (message : String) : Except Error Unit :=
  if condition then .ok () else .error (.ConfigurationError message)

/-- Modelled from the spec: the macro `ASSERT_THROW_NOT_IMPLEMENTED` (declared in
`mfmg/exceptions.hpp`) raises a `CapabilityNotSupported` error. -/
def ASSERT_THROW_NOT_IMPLEMENTED : Except Error Unit :=
  .error .CapabilityNotSupported

/-! ## Vectors and matrices (external linear algebra library, reference definitions) -/

/-- A vector of length `n`. -/
abbrev vector_type (n : Nat) := Fin n → ℚ

/-- A sparse matrix with `m` rows and `n` columns. -/
abbrev matrix_type (m n : Nat) := Matrix (Fin m) (Fin n) ℚ

/-- Method `v.add(a, w)`: `v += a * w`. -/
def vector_type.add {n : Nat} (v : vector_type n) (a : ℚ) (w : vector_type n) : vector_type n :=
  fun i => v i + a * w i

/-- Method `A.m()`: the number of rows. -/
def matrix_type.m {m n : Nat} (_A : matrix_type m n) : Nat := m

/-- Method `A.n()`: the number of columns. -/
def matrix_type.n {m n : Nat} (_A : matrix_type m n) : Nat := n

/-- Method `A.n_nonzero_elements()`: the number of nonzero entries. -/
def matrix_type.n_nonzero_elements {m n : Nat} (A : matrix_type m n) : Nat :=
  (Finset.univ.filter (fun p : Fin m × Fin n => A p.1 p.2 ≠ 0)).card

/-- Method `A.vmult(dst, src)`: overwrites `dst` with `A * src`; the previous contents of
`dst` are discarded. The new value of `dst` is returned. -/
def matrix_type.vmult {m n : Nat} (A : matrix_type m n) (_dst : vector_type m)
    (src : vector_type n) : vector_type m :=
  A.mulVec src

/-- Method `A.mmult(C, B)`: overwrites `C` with `A * B`. The new value of `C` is returned. -/
def matrix_type.mmult {m k n : Nat} (A : matrix_type m k) (_C : Option (matrix_type m n))
    (B : matrix_type k n) : matrix_type m n :=
  A * B

/-! ## Configuration tree (`boost::property_tree::ptree`) -/

/-- A property tree: a node carries a string and an ordered list of named children. -/
inductive ptree where
  | node (data : String) (children : List (String × ptree))

/-- The data string of a node. -/
def ptree.data : ptree → String
  | .node d _ => d

/-- The children of a node. -/
def ptree.children : ptree → List (String × ptree)
  | .node _ cs => cs

/-- Method `get_child_optional(path)`: follows a dotted path, given as the list of its
components, taking at every step the first child of that name. -/
def ptree.get_child_optional : ptree → List String → Option ptree
  | t, [] => some t
  | t, k :: ks =>
    match t.children.find? (fun c => c.1 = k) with
    | none => none
    | some c => ptree.get_child_optional c.2 ks

/-- Method `get(path, default)` at string type: the data at the path, the default when the path
does not exist. -/
def ptree.get (t : ptree) (path : List String) (default : String) : String :=
  match t.get_child_optional path with
  | some c => c.data
  | none => default

/-- The call `std::transform(s.begin(), s.end(), s.begin(), ::tolower)`. -/
def tolower (s : String) : String :=
  String.mk (s.data.map Char.toLower)

/-! ## DealIISmootherOperator -/

/-- The concrete preconditioner classes behind a `PreconditionBase` handle. -/
inductive PreconditionKind where
  | PreconditionSSOR
  | PreconditionSOR
  | PreconditionJacobi
  | PreconditionILU
  deriving DecidableEq, Repr

/-- An initialized relaxation preconditioner: its class and its action `vmult`. -/
structure PreconditionBase (n : Nat) where
  kind : PreconditionKind
  action : vector_type n → vector_type n

/-- Method `P.vmult(dst, src)`: overwrites `dst` with the preconditioner applied to `src`. -/
def PreconditionBase.vmult {n : Nat} (P : PreconditionBase n) (_dst : vector_type n)
    (src : vector_type n) : vector_type n :=
  P.action src

/-- The actions of the relaxation preconditioners whose kernels live in the external library,
as functions of the matrix they are initialized with. -/
structure SmootherLibrary (n : Nat) where
  PreconditionSSOR : matrix_type n n → vector_type n → vector_type n
  PreconditionSOR : matrix_type n n → vector_type n → vector_type n
  PreconditionILU : matrix_type n n → vector_type n → vector_type n

/-- Point Jacobi with the default relaxation parameter 1 and one sweep:
the action is `D⁻¹ r` with `D` the diagonal of the matrix. -/
def PreconditionJacobi_action {n : Nat} (A : matrix_type n n) (r : vector_type n) :
    vector_type n :=
  fun i => r i / A i i

/-- The smoother operator: the matrix it refers to and the owned preconditioner handle. -/
structure DealIISmootherOperator (n : Nat) where
  _matrix : matrix_type n n
  _smoother : Option (PreconditionBase n)

/-- Method `DealIISmootherOperator::initialize(prec_name)`. -/
def DealIISmootherOperator.initialize {n : Nat} (L : SmootherLibrary n)
    (self : DealIISmootherOperator n) (prec_name : String) :
    Except Error (DealIISmootherOperator n) :=
  -- Make parameters case-insensitive
  let prec_name_lower := tolower prec_name
  if prec_name_lower = "symmetric gauss-seidel" then
    .ok ⟨self._matrix, some ⟨.PreconditionSSOR, L.PreconditionSSOR self._matrix⟩⟩
  else if prec_name_lower = "gauss-seidel" then
    .ok ⟨self._matrix, some ⟨.PreconditionSOR, L.PreconditionSOR self._matrix⟩⟩
  else if prec_name_lower = "jacobi" then
    .ok ⟨self._matrix, some ⟨.PreconditionJacobi, PreconditionJacobi_action self._matrix⟩⟩
  else if prec_name_lower = "ilu" then
    .ok ⟨self._matrix, some ⟨.PreconditionILU, L.PreconditionILU self._matrix⟩⟩
  else do
    ASSERT_THROW false ("Unknown smoother name: \"" ++ prec_name_lower ++ "\"")
    pure self

/-- The constructor `DealIISmootherOperator(matrix, params)`. -/
def DealIISmootherOperator.new {n : Nat} (L : SmootherLibrary n) (matrix : matrix_type n n)
    (params : ptree) : Except Error (DealIISmootherOperator n) :=
  let prec_type := params.get ["smoother", "type"] "Symmetric Gauss-Seidel"
  DealIISmootherOperator.initialize L ⟨matrix, none⟩ prec_type

/-- Method `DealIISmootherOperator::apply(b, x)`; the new value of `x` is returned. -/
def DealIISmootherOperator.apply {n : Nat} (self : DealIISmootherOperator n)
    (b x : vector_type n) : Option (vector_type n) :=
  -- r = -(b - Ax)
  let r := b
  let r := self._matrix.vmult r x
  let r := r.add (-1) b
  -- x = x + B^{-1} (-r)
  let tmp := x
  match self._smoother with
  | none => none
  | some smoother =>
    let tmp := smoother.vmult tmp r
    some (x.add (-1) tmp)

/-- Method `DealIISmootherOperator::build_domain_vector()`. -/
def DealIISmootherOperator.build_domain_vector {n : Nat} (_self : DealIISmootherOperator n) :
    Except Error (Option (vector_type n)) := do
  ASSERT_THROW_NOT_IMPLEMENTED
  pure none

/-- Method `DealIISmootherOperator::build_range_vector()`. -/
def DealIISmootherOperator.build_range_vector {n : Nat} (_self : DealIISmootherOperator n) :
    Except Error (Option (vector_type n)) := do
  ASSERT_THROW_NOT_IMPLEMENTED
  pure none

/-- The 4×4 tridiagonal matrix with diagonal 2 and off-diagonals -1. -/
def tridiag4 : matrix_type 4 4 :=
  fun i j => if i = j then 2 else if i.val + 1 = j.val ∨ j.val + 1 = i.val then -1 else 0

/-- A library instance for concrete evaluation: the three external relaxations act as point
Jacobi. -/
def sample_smoother_library (n : Nat) : SmootherLibrary n :=
  ⟨PreconditionJacobi_action, PreconditionJacobi_action, PreconditionJacobi_action⟩

/-- The smoother names accepted after normalization. -/
def smoother_names : List String :=
  ["symmetric gauss-seidel", "gauss-seidel", "jacobi", "ilu"]

/-- A configuration tree with the single entry `smoother.type = s`. -/
def smoother_config (s : String) : ptree :=
  .node "" [("smoother", .node "" [("type", .node s [])])]

/-! ## DealIIMatrixOperator and DealIITrilinosMatrixOperator -/

/-- A sparsity pattern: the list of the stored positions. -/
structure SparsityPattern where
  positions : List (Nat × Nat)

/-- The matrix operator over a deal.II matrix: two shared handles. -/
structure DealIIMatrixOperator (m n : Nat) where
  _sparsity_pattern : Option SparsityPattern
  _matrix : Option (matrix_type m n)

/-- The constructor `DealIIMatrixOperator(matrix, sparsity_pattern)`. -/
def DealIIMatrixOperator.new {m n : Nat} (matrix : Option (matrix_type m n))
    (sparsity_pattern : Option SparsityPattern) : Except Error (DealIIMatrixOperator m n) := do
  let self : DealIIMatrixOperator m n := ⟨sparsity_pattern, matrix⟩
  ASSERT sparsity_pattern.isSome "deal.II matrices require a sparsity pattern"
  ASSERT matrix.isSome "The matrix must exist"
  pure self

/-- Method `DealIIMatrixOperator::apply(x, y)`; the new value of `y` is returned. -/
def DealIIMatrixOperator.apply {m n : Nat} (self : DealIIMatrixOperator m n)
    (x : vector_type n) (y : vector_type m) : Option (vector_type m) :=
  match self._matrix with
  | none => none
  | some matrix => some (matrix.vmult y x)

/-- The matrix operator over a Trilinos matrix: one shared handle. -/
structure DealIITrilinosMatrixOperator (m n : Nat) where
  _matrix : Option (matrix_type m n)

/-- The constructor `DealIITrilinosMatrixOperator(matrix, sparsity_pattern)`: the second
argument is unnamed and unused, the body is empty. -/
def DealIITrilinosMatrixOperator.new {m n : Nat} (matrix : Option (matrix_type m n))
    (_sparsity_pattern : Option SparsityPattern) :
    Except Error (DealIITrilinosMatrixOperator m n) :=
  pure ⟨matrix⟩

/-- The accessor `get_matrix()`. -/
def DealIITrilinosMatrixOperator.get_matrix {m n : Nat}
    (self : DealIITrilinosMatrixOperator m n) : Option (matrix_type m n) :=
  self._matrix

/-- Method `DealIITrilinosMatrixOperator::apply(x, y)`; the new value of `y` is returned. -/
def DealIITrilinosMatrixOperator.apply {m n : Nat} (self : DealIITrilinosMatrixOperator m n)
    (x : vector_type n) (y : vector_type m) : Option (vector_type m) :=
  match self._matrix with
  | none => none
  | some matrix => some (matrix.vmult y x)

/-- Method `DealIITrilinosMatrixOperator::transpose()`. -/
def DealIITrilinosMatrixOperator.transpose {m n : Nat}
    (self : DealIITrilinosMatrixOperator m n) : Option (DealIITrilinosMatrixOperator n m) :=
  match self._matrix with
  | none => none
  | some matrix =>
    let transposed_matrix : matrix_type n m := matrix.transpose
    some ⟨some transposed_matrix⟩

/-- Method `DealIITrilinosMatrixOperator::multiply(operator_b)`. -/
def DealIITrilinosMatrixOperator.multiply {m k n : Nat}
    (self : DealIITrilinosMatrixOperator m k) (operator_b : DealIITrilinosMatrixOperator k n) :
    Option (DealIITrilinosMatrixOperator m n) :=
  let downcast_operator_b := operator_b
  match self.get_matrix, downcast_operator_b.get_matrix with
  | some a, some b =>
    let c : Option (matrix_type m n) := none
    let c := a.mmult c b
    some ⟨some c⟩
  | _, _ => none

/-! ## The C++ type `double` (IEEE 754 binary64) -/

/-- A value of type `double`: a finite value, given by the rational number it denotes (of the
form `k * 2 ^ e` with `k < 2 ^ 53` and `-1074 ≤ e ≤ 971`; the sign of zero is not kept), an
infinity or a NaN. -/
inductive double where
  | finite (value : ℚ)
  | infinity (negative : Bool)
  | nan

/-- The quotient `a / b` of two naturals rounded to the nearest natural, ties to even. -/
def round_half_even (a b : Nat) : Nat :=
  let q := a / b
  let r := a % b
  if 2 * r < b then q else if b < 2 * r then q + 1 else if q % 2 = 0 then q else q + 1

/-- The fraction `(a / b) / 2 ^ k` as a numerator and a denominator. -/
def scaled (a b : Nat) (k : Int) : Nat × Nat :=
  if 0 ≤ k then (a, b * 2 ^ k.toNat) else (a * 2 ^ (-k).toNat, b)

/-- The number of binary digits of `a`, for `fuel ≥ a`. -/
def bit_length : Nat → Nat → Nat
  | 0, _ => 0
  | fuel + 1, a => if a = 0 then 0 else bit_length fuel (a / 2) + 1

/-- The binary exponent of the positive fraction `a / b`: the `e` with
`2 ^ e ≤ a / b < 2 ^ (e + 1)`. -/
def floor_log2 (a b : Nat) : Int :=
  let e0 : Int := (bit_length a a : Int) - (bit_length b b : Int)
  if (scaled a b e0).2 ≤ (scaled a b e0).1 then e0 else e0 - 1

/-- The binary64 rounding of the positive fraction `a / b`: the pair `(k, q)` with
`k * 2 ^ q` the nearest value with a 53-bit significand, ties to even; the exponent does not
go below that of the subnormal numbers. -/
def round_magnitude (a b : Nat) : Nat × Int :=
  let e := floor_log2 a b
  let q := (if e < -1022 then -1022 else e) - 52
  (round_half_even (scaled a b q).1 (scaled a b q).2, q)

/-- The `double` nearest to a rational (round to nearest, ties to even; overflow gives an
infinity). -/
def double.round (x : ℚ) : double :=
  if x = 0 then .finite 0 else
    let r := round_magnitude x.num.natAbs x.den
    if 0 ≤ r.2 ∧ 2 ^ 1024 ≤ r.1 * 2 ^ r.2.toNat then .infinity (decide (x < 0))
    else
      let magnitude : ℚ :=
        if 0 ≤ r.2 then ((r.1 * 2 ^ r.2.toNat : Nat) : ℚ)
        else (r.1 : ℚ) / ((2 ^ (-r.2).toNat : Nat) : ℚ)
      .finite (if x < 0 then -magnitude else magnitude)

/-- The product `x * y` of two values of type `double`. -/
def double.mul : double → double → double
  | .finite x, .finite y => double.round (x * y)
  | .finite x, .infinity s => if x = 0 then .nan else .infinity (xor s (decide (x < 0)))
  | .infinity s, .finite y => if y = 0 then .nan else .infinity (xor s (decide (y < 0)))
  | .infinity s, .infinity t => .infinity (xor s t)
  | .nan, _ => .nan
  | _, .nan => .nan

/-- The conversion of an unsigned integer into `double`. -/
def double.of_size_t (k : Nat) : double :=
  double.round (k : ℚ)

/-! ## DealIIDirectOperator -/

/-- A `Teuchos::ParameterList`: named entries. -/
abbrev ParameterList := List (String × String)

/-- A level operator of the ML hierarchy (`ML_Operator`): the local length of its input
vector, a C `int`. -/
structure ML_Operator where
  invec_leng : Int

/-- The hierarchy structure `ML` held by one worker: the actual level count (a C `int`), the
level-id table and the array of level matrices. The C arrays are total maps. -/
structure ML where
  ML_num_actual_levels : Int
  LevelID : Nat → Nat
  Amat : Nat → ML_Operator

/-- The preconditioner `ML_Epetra::MultiLevelPreconditioner` as seen from one worker: the
hierarchy returned by `GetML()`, the hierarchies held by the other workers of the
communicator `Comm()`, the two outputs of `Complexities(oc, nnz)` and the action of the
preconditioner. -/
structure MultiLevelPreconditioner (m n : Nat) where
  GetML : ML
  Comm : List ML
  Complexities : double × double
  action : vector_type m → vector_type n

/-- Method `Comm().SumAll(&local, &global, 1)`: the sum over all the workers of the value each
of them passes as `local`; every worker evaluates the same expression on its own hierarchy. -/
def MultiLevelPreconditioner.SumAll {m n : Nat} (ml_operator : MultiLevelPreconditioner m n)
    (local_value : ML → Int) : Int :=
  local_value ml_operator.GetML + (ml_operator.Comm.map local_value).sum

/-- An initialized `dealii::TrilinosWrappers::PreconditionAMG`. -/
structure PreconditionAMG (m n : Nat) where
  trilinos_operator : MultiLevelPreconditioner m n

/-- Method `P.vmult(dst, src)` of the AMG preconditioner. -/
def PreconditionAMG.vmult {m n : Nat} (P : PreconditionAMG m n) (_dst : vector_type n)
    (src : vector_type m) : vector_type n :=
  P.trilinos_operator.action src

/-- An initialized direct solver (`dealii::TrilinosWrappers::SolverDirect`): the matrix it is
bound to and its solve action. -/
structure solver_type (m n : Nat) where
  matrix : matrix_type m n
  action : vector_type m → vector_type n

/-- Method `S.solve(x, b)`: overwrites `x` with the solution for the right-hand side `b`. -/
def solver_type.solve {m n : Nat} (S : solver_type m n) (_x : vector_type n)
    (b : vector_type m) : vector_type n :=
  S.action b

/-- The external pieces used by the coarse operator: the solve action of the direct solver
on a matrix, the ML default parameter sets, the conversion of a configuration subtree into
parameters (`ptree2plist` of `mfmg/utils.hpp`) and the construction of the AMG hierarchy. -/
structure CoarseLibrary (m n : Nat) where
  SolverDirect : matrix_type m n → vector_type m → vector_type n
  SetDefaults : String → ParameterList → ParameterList
  ptree2plist : ptree → ParameterList → ParameterList
  PreconditionAMG : matrix_type m n → ParameterList → MultiLevelPreconditioner m n

/-- The coarse operator: the three captured scalars and the two strategy handles. -/
structure DealIIDirectOperator (m n : Nat) where
  _m : Nat
  _n : Nat
  _nnz : Nat
  _solver : Option (solver_type m n)
  _smoother : Option (PreconditionAMG m n)

/-- The constructor `DealIIDirectOperator(matrix, params)`; `params` may be the null handle. -/
def DealIIDirectOperator.new {m n : Nat} (L : CoarseLibrary m n) (matrix : matrix_type m n)
    (params : Option ptree) : Except Error (DealIIDirectOperator m n) :=
  let _m := matrix.m
  let _n := matrix.n
  let _nnz := matrix.n_nonzero_elements
  let coarse_type :=
    match params with
    | some p => p.get ["coarse", "type"] ""
    | none => ""
  -- Make parameters case-insensitive
  let coarse_type_lower := tolower coarse_type
  if coarse_type_lower = "" ∨ coarse_type_lower = "direct" then
    .ok ⟨_m, _n, _nnz, some ⟨matrix, L.SolverDirect matrix⟩, none⟩
  else
    if coarse_type_lower = "ml" then
      match params with
      | none => .error .UndefinedBehaviour
      | some p =>
        let ml_tree := p.get_child_optional ["coarse", "params"]
        -- For now, always set defaults to SA
        let ml_params : ParameterList := []
        let ml_params := L.SetDefaults "SA" ml_params
        let ml_params :=
          match ml_tree with
          | some t => L.ptree2plist t ml_params  -- Augment with user provided parameters
          | none => ml_params
        .ok ⟨_m, _n, _nnz, none, some ⟨L.PreconditionAMG matrix ml_params⟩⟩
    else do
      ASSERT_THROW false ("Unknown coarse solver name: \"" ++ coarse_type_lower ++ "\"")
      pure ⟨_m, _n, _nnz, none, none⟩

/-- Modelled from the spec: the accessor `m()` is declared in `mfmg/dealii_operator.hpp`, not in
the translated file; it returns the row count captured at construction. -/
def DealIIDirectOperator.m {m n : Nat} (self : DealIIDirectOperator m n) : Nat :=
  self._m

/-- Modelled from the spec: `check_state()` is declared in `mfmg/dealii_operator.hpp`, not in
the translated file; it checks the invariant of the operator, never both strategies active and
never neither. -/
def DealIIDirectOperator.check_state {m n : Nat} (self : DealIIDirectOperator m n) :
    Except Error Unit :=
  ASSERT (self._solver.isSome != self._smoother.isSome)
    "exactly one of the direct solver and the preconditioner must be set"

/-- The conversion of a `long long` into `size_t`: reduction modulo `2 ^ 64`. -/
def size_t_of_long_long (z : Int) : Nat :=
  (z % 18446744073709551616).toNat

/-- The conversion of a `double` into `size_t`: truncation toward zero; the behaviour is
undefined when the truncated value is not a `size_t` value (negative, `2 ^ 64` or more,
infinite or NaN). -/
def size_t_of_double : double → Except Error Nat
  | .finite x =>
    let t := Int.tdiv x.num x.den
    if 0 ≤ t ∧ t < 18446744073709551616 then .ok t.toNat else .error .UndefinedBehaviour
  | .infinity _ => .error .UndefinedBehaviour
  | .nan => .error .UndefinedBehaviour

/-- The body of the loop of `grid_complexity()` at level index `i`. -/
def DealIIDirectOperator.grid_complexity_step {m n : Nat}
    (ml_operator : MultiLevelPreconditioner m n) (complexity : Nat) (i : Nat) : Nat :=
  let global := ml_operator.SumAll (fun ml => (ml.Amat (ml.LevelID i)).invec_leng)
  size_t_of_long_long ((complexity : Int) + global)

/-- Method `DealIIDirectOperator::grid_complexity()`. -/
def DealIIDirectOperator.grid_complexity {m n : Nat} (self : DealIIDirectOperator m n) :
    Except Error Nat := do
  self.check_state
  match self._solver with
  | some _ => pure self.m
  | none =>
    match self._smoother with
    | none => .error .UndefinedBehaviour
    | some smoother =>
      let ml_operator := smoother.trilinos_operator
      let ml := ml_operator.GetML
      let complexity : Nat := 0
      let complexity := (List.range ml.ML_num_actual_levels.toNat).foldl
        (DealIIDirectOperator.grid_complexity_step ml_operator) complexity
      pure complexity

/-- Method `DealIIDirectOperator::operator_complexity()`. -/
def DealIIDirectOperator.operator_complexity {m n : Nat} (self : DealIIDirectOperator m n) :
    Except Error Nat := do
  self.check_state
  match self._solver with
  | some _ => pure self._nnz
  | none =>
    match self._smoother with
    | none => .error .UndefinedBehaviour
    | some smoother =>
      let ml_operator := smoother.trilinos_operator
      let (oc, nnz) := ml_operator.Complexities
      size_t_of_double (oc.mul nnz)

/-- Method `DealIIDirectOperator::apply(b, x)`; the new value of `x` is returned. -/
def DealIIDirectOperator.apply {m n : Nat} (self : DealIIDirectOperator m n)
    (b : vector_type m) (x : vector_type n) : Except Error (vector_type n) := do
  self.check_state
  match self._solver with
  | some solver => pure (solver.solve x b)
  | none =>
    match self._smoother with
    | none => .error .UndefinedBehaviour
    | some smoother => pure (smoother.vmult x b)

/-- Method `DealIIDirectOperator::build_domain_vector()`. -/
def DealIIDirectOperator.build_domain_vector {m n : Nat} (_self : DealIIDirectOperator m n) :
    Except Error (Option (vector_type n)) := do
  ASSERT_THROW_NOT_IMPLEMENTED
  pure none

/-- Method `DealIIDirectOperator::build_range_vector()`. -/
def DealIIDirectOperator.build_range_vector {m n : Nat} (_self : DealIIDirectOperator m n) :
    Except Error (Option (vector_type m)) := do
  ASSERT_THROW_NOT_IMPLEMENTED
  pure none

/-- The calls that the cycle driver can make on a constructed coarse operator. -/
inductive Call (m n : Nat) where
  | apply (b : vector_type m) (x : vector_type n)
  | grid_complexity
  | operator_complexity
  | build_domain_vector
  | build_range_vector

/-- What a call returns or throws, the returned value being dropped. -/
def DealIIDirectOperator.outcome {m n : Nat} (self : DealIIDirectOperator m n) :
    Call m n → Except Error Unit
  | .apply b x => (self.apply b x).map (fun _ => ())
  | .grid_complexity => self.grid_complexity.map (fun _ => ())
  | .operator_complexity => self.operator_complexity.map (fun _ => ())
  | .build_domain_vector => self.build_domain_vector.map (fun _ => ())
  | .build_range_vector => self.build_range_vector.map (fun _ => ())

/-- The operator after a call. All five methods are `const` and none of them assigns a member:
whether the call returns or throws, the object is the one it was called on. -/
def DealIIDirectOperator.step {m n : Nat} (self : DealIIDirectOperator m n)
    (c : Call m n) : DealIIDirectOperator m n :=
  match self.outcome c with
  | .ok _ => self
  | .error _ => self

/-- The operator after a sequence of calls. -/
def DealIIDirectOperator.run {m n : Nat} (self : DealIIDirectOperator m n)
    (cs : List (Call m n)) : DealIIDirectOperator m n :=
  cs.foldl DealIIDirectOperator.step self

/-- The value of `coarse.type` that the constructor reads: the empty string when the
configuration handle is null or the key is absent. -/
def configured_coarse_type (params : Option ptree) : String :=
  match params with
  | some p => p.get ["coarse", "type"] ""
  | none => ""

/-- The parameter set handed to the AMG preconditioner for a configuration tree. -/
def configured_ml_params {m n : Nat} (L : CoarseLibrary m n) (p : ptree) : ParameterList :=
  match p.get_child_optional ["coarse", "params"] with
  | some t => L.ptree2plist t (L.SetDefaults "SA" [])
  | none => L.SetDefaults "SA" []

/-- A one-level hierarchy on a single worker whose level matrix has input length `k`. -/
def sample_ML (k : Nat) : ML :=
  ⟨1, fun i => i, fun _ => ⟨k⟩⟩

/-- A library instance for concrete evaluation: the direct solver and the AMG action act as
point Jacobi, the defaults are one named entry, a subtree contributes its direct children, and
the hierarchy has one level on one worker. -/
def sample_coarse_library (n : Nat) : CoarseLibrary n n :=
  ⟨PreconditionJacobi_action,
   fun name pl => ("default values", name) :: pl,
   fun t pl => pl ++ t.children.map (fun c => (c.1, c.2.data)),
   fun A _ => ⟨sample_ML n, [], (.finite 1, double.of_size_t A.n_nonzero_elements),
    PreconditionJacobi_action A⟩⟩

/-- A configuration tree with the single entry `coarse.type = s`. -/
def coarse_config (s : String) : ptree :=
  .node "" [("coarse", .node "" [("type", .node s [])])]

/-- The global length of level `i`, in the words of the specification: the sum over all
workers of the local input-vector length of the level matrix selected through the level-id
table at `i`. -/
def global_length {m n : Nat} (ml_operator : MultiLevelPreconditioner m n) (i : Nat) : Int :=
  ((ml_operator.GetML :: ml_operator.Comm).map
    (fun ml => (ml.Amat (ml.LevelID i)).invec_leng)).sum

/-- The sum of the global lengths over the level indices from 0 up to, and excluding, the
actual level count. -/
def total_length {m n : Nat} (ml_operator : MultiLevelPreconditioner m n) : Int :=
  ((List.range ml_operator.GetML.ML_num_actual_levels.toNat).map
    (global_length ml_operator)).sum

/-- A three-level hierarchy of one worker: level matrices of local input lengths 60, 20 and 5
stored at positions 2, 1 and 0 of `Amat`, reached through the level-id table `i ↦ 2 - i`. -/
def three_level_ML (a b c : Int) : ML :=
  ⟨3, fun i => 2 - i, fun k => if k = 2 then ⟨a⟩ else if k = 1 then ⟨b⟩ else ⟨c⟩⟩

/-- A hierarchy distributed over two workers, the worker at hand and one peer. -/
def two_worker_preconditioner : PreconditionAMG 4 4 :=
  ⟨⟨three_level_ML 60 20 5, [three_level_ML 40 10 3], (.finite (3 / 2), .finite 8),
    PreconditionJacobi_action tridiag4⟩⟩

/-! ## Theorems -/

/-- The configured smoother name of the one-entry configuration. -/
theorem smoother_config_get (s d : String) :
    (smoother_config s).get ["smoother", "type"] d = s := by
  simp [smoother_config, ptree.get, ptree.get_child_optional, ptree.children, ptree.data]

/-- The three library calls of `apply` in closed form, for arbitrary scratch contents. -/
theorem smoother_steps_eq {n : Nat} (A : matrix_type n n) (P : PreconditionBase n)
    (b x r0 tmp0 : vector_type n) :
    x.add (-1) (P.vmult tmp0 ((A.vmult r0 x).add (-1) b))
      = x - P.action (A.mulVec x - b) := by
  have hr : (A.vmult r0 x).add (-1) b = A.mulVec x - b := by
    funext i
    simp [vector_type.add, matrix_type.vmult, sub_eq_add_neg]
  rw [hr]
  funext i
  simp [vector_type.add, PreconditionBase.vmult, sub_eq_add_neg]

/-- The result of `apply` in closed form. -/
theorem smoother_apply_eq {n : Nat} (A : matrix_type n n) (P : PreconditionBase n)
    (b x : vector_type n) :
    DealIISmootherOperator.apply ⟨A, some P⟩ b x = some (x - P.action (A.mulVec x - b)) := by
  simp only [DealIISmootherOperator.apply]
  rw [smoother_steps_eq]

/-- C1: `DealIISmootherOperator::apply(b, x)` leaves `x = x_old - M⁻¹ (A x_old - b)` for every
matrix `A`, every preconditioner (class and action `M⁻¹`), every `b` and every `x_old`; the
three library calls give the same vector whatever the scratch vectors `r` and `tmp` hold before
they are overwritten. -/
theorem smoother_apply_richardson {n : Nat} (A : matrix_type n n) (kind : PreconditionKind)
    (Minv : vector_type n → vector_type n) (b x_old : vector_type n) :
    DealIISmootherOperator.apply ⟨A, some ⟨kind, Minv⟩⟩ b x_old
        = some (x_old - Minv (A.mulVec x_old - b))
      ∧ ∀ r0 tmp0 : vector_type n,
          x_old.add (-1) (PreconditionBase.vmult ⟨kind, Minv⟩ tmp0 ((A.vmult r0 x_old).add (-1) b))
            = x_old - Minv (A.mulVec x_old - b) :=
  ⟨smoother_apply_eq A ⟨kind, Minv⟩ b x_old,
    fun r0 tmp0 => smoother_steps_eq A ⟨kind, Minv⟩ b x_old r0 tmp0⟩

/-- The result of `initialize` in terms of the normalized name. -/
theorem smoother_initialize_eq {n : Nat} (L : SmootherLibrary n) (A : matrix_type n n)
    (s : String) :
    DealIISmootherOperator.initialize L ⟨A, none⟩ s =
      if tolower s = "symmetric gauss-seidel" then
        .ok ⟨A, some ⟨.PreconditionSSOR, L.PreconditionSSOR A⟩⟩
      else if tolower s = "gauss-seidel" then
        .ok ⟨A, some ⟨.PreconditionSOR, L.PreconditionSOR A⟩⟩
      else if tolower s = "jacobi" then
        .ok ⟨A, some ⟨.PreconditionJacobi, PreconditionJacobi_action A⟩⟩
      else if tolower s = "ilu" then
        .ok ⟨A, some ⟨.PreconditionILU, L.PreconditionILU A⟩⟩
      else .error (.ConfigurationError ("Unknown smoother name: \"" ++ tolower s ++ "\"")) := by
  simp only [ASSERT_THROW, DealIISmootherOperator.initialize]
  rfl

/-- C2: with `s` the configured `smoother.type` (`"Symmetric Gauss-Seidel"` when the key is
absent) and `t` its lower-cased form, construction returns an operator exactly when `t` is one of
the four names, the preconditioner being SSOR, SOR, Jacobi, ILU respectively, initialized with
the matrix; for every other `s` it throws a `ConfigurationError` whose message contains `t`. -/
theorem smoother_new_selects {n : Nat} (L : SmootherLibrary n) (A : matrix_type n n)
    (params : ptree) :
    (params.get_child_optional ["smoother", "type"] = none →
        params.get ["smoother", "type"] "Symmetric Gauss-Seidel" = "Symmetric Gauss-Seidel"
        ∧ DealIISmootherOperator.new L A params
            = .ok ⟨A, some ⟨.PreconditionSSOR, L.PreconditionSSOR A⟩⟩)
    ∧ (∀ t, t = tolower (params.get ["smoother", "type"] "Symmetric Gauss-Seidel") →
        ((∃ op, DealIISmootherOperator.new L A params = .ok op) ↔ t ∈ smoother_names)
        ∧ (t = "symmetric gauss-seidel" → DealIISmootherOperator.new L A params
            = .ok ⟨A, some ⟨.PreconditionSSOR, L.PreconditionSSOR A⟩⟩)
        ∧ (t = "gauss-seidel" → DealIISmootherOperator.new L A params
            = .ok ⟨A, some ⟨.PreconditionSOR, L.PreconditionSOR A⟩⟩)
        ∧ (t = "jacobi" → DealIISmootherOperator.new L A params
            = .ok ⟨A, some ⟨.PreconditionJacobi, PreconditionJacobi_action A⟩⟩)
        ∧ (t = "ilu" → DealIISmootherOperator.new L A params
            = .ok ⟨A, some ⟨.PreconditionILU, L.PreconditionILU A⟩⟩)
        ∧ (t ∉ smoother_names → DealIISmootherOperator.new L A params
            = .error (.ConfigurationError ("Unknown smoother name: \"" ++ t ++ "\"")))) := by
  refine ⟨?_, ?_⟩
  · intro h
    have hg : params.get ["smoother", "type"] "Symmetric Gauss-Seidel"
        = "Symmetric Gauss-Seidel" := by
      simp [ptree.get, h]
    refine ⟨hg, ?_⟩
    have hl : tolower "Symmetric Gauss-Seidel" = "symmetric gauss-seidel" := by decide
    simp only [DealIISmootherOperator.new, hg, smoother_initialize_eq, hl, if_true]
  · intro t ht
    simp only [DealIISmootherOperator.new, smoother_initialize_eq, ← ht, smoother_names]
    by_cases h1 : t = "symmetric gauss-seidel"
    · subst h1; simp
    by_cases h2 : t = "gauss-seidel"
    · subst h2; simp
    by_cases h3 : t = "jacobi"
    · subst h3; simp
    by_cases h4 : t = "ilu"
    · subst h4; simp
    simp [h1, h2, h3, h4]

/-- Witness of C2 on the 4×4 model matrix: `"Jacobi"` selects point Jacobi, an absent key
selects SSOR, `"nonsense"` is rejected with its name in the message. -/
theorem smoother_new_selects_witness :
    DealIISmootherOperator.new (sample_smoother_library 4) tridiag4 (smoother_config "Jacobi")
        = .ok ⟨tridiag4, some ⟨.PreconditionJacobi, PreconditionJacobi_action tridiag4⟩⟩
    ∧ DealIISmootherOperator.new (sample_smoother_library 4) tridiag4 (.node "" [])
        = .ok ⟨tridiag4, some ⟨.PreconditionSSOR,
            (sample_smoother_library 4).PreconditionSSOR tridiag4⟩⟩
    ∧ DealIISmootherOperator.new (sample_smoother_library 4) tridiag4
          (smoother_config "NonSense")
        = .error (.ConfigurationError "Unknown smoother name: \"nonsense\"") := by
  refine ⟨?_, ?_, ?_⟩
  · exact ((smoother_new_selects (sample_smoother_library 4) tridiag4
      (smoother_config "Jacobi")).2 "jacobi"
        (by rw [smoother_config_get]; decide)).2.2.2.1 rfl
  · exact ((smoother_new_selects (sample_smoother_library 4) tridiag4 (.node "" [])).1
      (by simp [ptree.get_child_optional, ptree.children])).2
  · exact ((smoother_new_selects (sample_smoother_library 4) tridiag4
      (smoother_config "NonSense")).2 "nonsense"
        (by rw [smoother_config_get]; decide)).2.2.2.2.2 (by decide)

/-- C8: started from the zero iterate, `apply(b, x)` leaves `x = M⁻¹ b` for every matrix `A`,
every linear preconditioner action `M⁻¹` and every `b`; and for the 4×4 tridiagonal matrix
(diagonal 2, off-diagonals -1) with `smoother.type = "jacobi"` and `b = [1, 0, 0, 1]`, one
`apply` from zero yields `[1/2, 0, 0, 1/2]`. -/
theorem smoother_apply_from_zero :
    (∀ (n : Nat) (A : matrix_type n n) (kind : PreconditionKind)
        (Minv : vector_type n →ₗ[ℚ] vector_type n) (b : vector_type n),
        DealIISmootherOperator.apply ⟨A, some ⟨kind, Minv⟩⟩ b 0 = some (Minv b))
    ∧ (∀ L : SmootherLibrary 4, ∃ op,
        DealIISmootherOperator.new L tridiag4 (smoother_config "jacobi") = .ok op
        ∧ op.apply ![1, 0, 0, 1] 0 = some ![1 / 2, 0, 0, 1 / 2]) := by
  constructor
  · intro n A kind Minv b
    rw [smoother_apply_eq]
    simp
  · intro L
    refine ⟨⟨tridiag4, some ⟨.PreconditionJacobi, PreconditionJacobi_action tridiag4⟩⟩, ?_, ?_⟩
    · have hl : tolower "jacobi" = "jacobi" := by decide
      simp only [DealIISmootherOperator.new, smoother_config_get, smoother_initialize_eq, hl]
      simp
    · rw [smoother_apply_eq]
      congr 1
      funext i
      fin_cases i <;> simp [PreconditionJacobi_action, tridiag4] <;> norm_num

/-- The configured coarse type of the one-entry configuration. -/
theorem coarse_config_type (s : String) :
    configured_coarse_type (some (coarse_config s)) = s := by
  simp [configured_coarse_type, coarse_config, ptree.get, ptree.get_child_optional,
    ptree.children, ptree.data]

/-- The result of the constructor of the coarse operator in terms of the normalized name. -/
theorem direct_new_eq {m n : Nat} (L : CoarseLibrary m n) (A : matrix_type m n)
    (params : Option ptree) :
    DealIIDirectOperator.new L A params =
      if tolower (configured_coarse_type params) = ""
          ∨ tolower (configured_coarse_type params) = "direct" then
        .ok ⟨m, n, A.n_nonzero_elements, some ⟨A, L.SolverDirect A⟩, none⟩
      else if tolower (configured_coarse_type params) = "ml" then
        match params with
        | none => .error .UndefinedBehaviour
        | some p =>
          .ok ⟨m, n, A.n_nonzero_elements, none,
            some ⟨L.PreconditionAMG A (configured_ml_params L p)⟩⟩
      else .error (.ConfigurationError
        ("Unknown coarse solver name: \"" ++ tolower (configured_coarse_type params) ++ "\"")) := by
  cases params with
  | none =>
    simp only [DealIIDirectOperator.new, configured_coarse_type, ASSERT_THROW, matrix_type.m,
      matrix_type.n]
    rfl
  | some p =>
    simp only [DealIIDirectOperator.new, configured_coarse_type, configured_ml_params,
      ASSERT_THROW, matrix_type.m, matrix_type.n]
    split
    · rfl
    · split
      · cases p.get_child_optional ["coarse", "params"] <;> rfl
      · rfl

/-- The normalized empty string. -/
theorem tolower_empty : tolower "" = "" := by decide

/-- C3: with `t` the lower-cased configured `coarse.type` (empty when the key is absent or the
configuration handle is null): for `t = ""` or `t = "direct"` the constructor builds a direct
solver bound to `A` and no preconditioner; for `t = "ml"` it builds an AMG preconditioner from
`A` and no solver; for any other `t` it throws a `ConfigurationError` whose message contains
`t`. With a null configuration handle the result is the direct solver. -/
theorem direct_new_selects {m n : Nat} (L : CoarseLibrary m n) (A : matrix_type m n)
    (params : Option ptree) :
    DealIIDirectOperator.new L A none
        = .ok ⟨m, n, A.n_nonzero_elements, some ⟨A, L.SolverDirect A⟩, none⟩
    ∧ configured_coarse_type none = ""
    ∧ (∀ p : ptree, p.get_child_optional ["coarse", "type"] = none →
        configured_coarse_type (some p) = "")
    ∧ (∀ t, t = tolower (configured_coarse_type params) →
        (t = "" ∨ t = "direct" → DealIIDirectOperator.new L A params
            = .ok ⟨m, n, A.n_nonzero_elements, some ⟨A, L.SolverDirect A⟩, none⟩)
        ∧ (t = "ml" → ∃ p, params = some p ∧ DealIIDirectOperator.new L A params
            = .ok ⟨m, n, A.n_nonzero_elements, none,
                some ⟨L.PreconditionAMG A (configured_ml_params L p)⟩⟩)
        ∧ (t ≠ "" → t ≠ "direct" → t ≠ "ml" → DealIIDirectOperator.new L A params
            = .error (.ConfigurationError ("Unknown coarse solver name: \"" ++ t ++ "\"")))) := by
  refine ⟨?_, rfl, ?_, ?_⟩
  · rw [direct_new_eq]
    simp [configured_coarse_type, tolower_empty]
  · intro p hp
    simp [configured_coarse_type, ptree.get, hp]
  · intro t ht
    rw [direct_new_eq, ← ht]
    refine ⟨?_, ?_, ?_⟩
    · intro h
      simp [h]
    · intro h
      subst h
      cases params with
      | none =>
        rw [configured_coarse_type, tolower_empty] at ht
        exact absurd ht (by decide)
      | some p => exact ⟨p, rfl, by simp⟩
    · intro h1 h2 h3
      simp [h1, h2, h3]

/-- Witness of C3 on the 4×4 model matrix: `"Direct"` selects the direct solver, `"ML"` the AMG
preconditioner, `"nonsense"` is rejected with its name in the message. -/
theorem direct_new_selects_witness :
    DealIIDirectOperator.new (sample_coarse_library 4) tridiag4 (some (coarse_config "Direct"))
        = .ok ⟨4, 4, tridiag4.n_nonzero_elements,
            some ⟨tridiag4, (sample_coarse_library 4).SolverDirect tridiag4⟩, none⟩
    ∧ (∃ p, some (coarse_config "ML") = some p
        ∧ DealIIDirectOperator.new (sample_coarse_library 4) tridiag4 (some (coarse_config "ML"))
          = .ok ⟨4, 4, tridiag4.n_nonzero_elements, none,
              some ⟨(sample_coarse_library 4).PreconditionAMG tridiag4
                (configured_ml_params (sample_coarse_library 4) p)⟩⟩)
    ∧ DealIIDirectOperator.new (sample_coarse_library 4) tridiag4
          (some (coarse_config "nonsense"))
        = .error (.ConfigurationError "Unknown coarse solver name: \"nonsense\"") := by
  refine ⟨?_, ?_, ?_⟩
  · exact ((direct_new_selects (sample_coarse_library 4) tridiag4
      (some (coarse_config "Direct"))).2.2.2 "direct"
        (by rw [coarse_config_type]; decide)).1 (Or.inr rfl)
  · exact ((direct_new_selects (sample_coarse_library 4) tridiag4
      (some (coarse_config "ML"))).2.2.2 "ml"
        (by rw [coarse_config_type]; decide)).2.1 rfl
  · exact ((direct_new_selects (sample_coarse_library 4) tridiag4
      (some (coarse_config "nonsense"))).2.2.2 "nonsense"
        (by rw [coarse_config_type]; decide)).2.2 (by decide) (by decide) (by decide)

/-- A call leaves the operator as it is. -/
theorem direct_step_eq {m n : Nat} (op : DealIIDirectOperator m n) (c : Call m n) :
    op.step c = op := by
  unfold DealIIDirectOperator.step
  split <;> rfl

/-- A sequence of calls leaves the operator as it is. -/
theorem direct_run_eq {m n : Nat} (op : DealIIDirectOperator m n) (cs : List (Call m n)) :
    op.run cs = op := by
  induction cs with
  | nil => rfl
  | cons c cs ih =>
    have h : op.run (c :: cs) = (op.step c).run cs := rfl
    rw [h, direct_step_eq, ih]

/-- The handles of a constructed coarse operator: a solver and no preconditioner, or a
preconditioner and no solver. -/
theorem direct_new_handles {m n : Nat} (L : CoarseLibrary m n) (A : matrix_type m n)
    (params : Option ptree) (op : DealIIDirectOperator m n)
    (h : DealIIDirectOperator.new L A params = .ok op) :
    (op._solver = some ⟨A, L.SolverDirect A⟩ ∧ op._smoother = none
        ∧ (tolower (configured_coarse_type params) = ""
          ∨ tolower (configured_coarse_type params) = "direct"))
    ∨ (op._solver = none ∧ (∃ P, op._smoother = some P)
        ∧ tolower (configured_coarse_type params) = "ml") := by
  rw [direct_new_eq] at h
  split at h
  · next hd =>
    injection h with h
    subst h
    exact Or.inl ⟨rfl, rfl, hd⟩
  · split at h
    · next hml =>
      cases params with
      | none => simp at h
      | some p =>
        injection h with h
        subst h
        exact Or.inr ⟨rfl, ⟨_, rfl⟩, hml⟩
    · simp at h

/-- C4: after a construction that returns, exactly one of the two strategy handles is set
(`check_state` passes), and after any sequence of calls to `apply`, `grid_complexity`,
`operator_complexity`, `build_domain_vector`, `build_range_vector` each handle is set exactly
when it was set after construction. -/
theorem direct_strategy_invariant {m n : Nat} (L : CoarseLibrary m n) (A : matrix_type m n)
    (params : Option ptree) (op : DealIIDirectOperator m n)
    (h : DealIIDirectOperator.new L A params = .ok op) :
    ((op._solver.isSome = true ∧ op._smoother.isSome = false)
        ∨ (op._solver.isSome = false ∧ op._smoother.isSome = true))
    ∧ op.check_state = .ok ()
    ∧ ∀ cs : List (Call m n),
        (op.run cs)._solver.isSome = op._solver.isSome
        ∧ (op.run cs)._smoother.isSome = op._smoother.isSome
        ∧ (((op.run cs)._solver.isSome = true ∧ (op.run cs)._smoother.isSome = false)
          ∨ ((op.run cs)._solver.isSome = false ∧ (op.run cs)._smoother.isSome = true)) := by
  have hx : (op._solver.isSome = true ∧ op._smoother.isSome = false)
      ∨ (op._solver.isSome = false ∧ op._smoother.isSome = true) := by
    rcases direct_new_handles L A params op h with ⟨h1, h2, _⟩ | ⟨h1, ⟨P, h2⟩, _⟩
    · left; simp [h1, h2]
    · right; simp [h1, h2]
  refine ⟨hx, ?_, ?_⟩
  · rcases hx with ⟨h1, h2⟩ | ⟨h1, h2⟩ <;>
      simp [DealIIDirectOperator.check_state, ASSERT, h1, h2]
  · intro cs
    rw [direct_run_eq]
    exact ⟨rfl, rfl, hx⟩

/-- Witness of C4: the operator built on the 4×4 model matrix with `coarse.type = "ml"` has the
preconditioner set and the solver unset, also after two complexity queries and an `apply`. -/
theorem direct_strategy_invariant_witness :
    ∃ op, DealIIDirectOperator.new (sample_coarse_library 4) tridiag4 (some (coarse_config "ml"))
        = .ok op
      ∧ op._solver.isSome = false ∧ op._smoother.isSome = true
      ∧ (op.run [.grid_complexity, .apply ![1, 0, 0, 1] 0, .operator_complexity])._solver.isSome
          = false
      ∧ (op.run [.grid_complexity, .apply ![1, 0, 0, 1] 0, .operator_complexity])._smoother.isSome
          = true := by
  have hnew : DealIIDirectOperator.new (sample_coarse_library 4) tridiag4
      (some (coarse_config "ml"))
      = .ok ⟨4, 4, tridiag4.n_nonzero_elements, none,
          some ⟨(sample_coarse_library 4).PreconditionAMG tridiag4
            (configured_ml_params (sample_coarse_library 4) (coarse_config "ml"))⟩⟩ := by
    rw [direct_new_eq, coarse_config_type]
    have hl : tolower "ml" = "ml" := by decide
    simp [hl]
  refine ⟨_, hnew, rfl, rfl, ?_⟩
  have hw := (direct_strategy_invariant (sample_coarse_library 4) tridiag4
    (some (coarse_config "ml")) _ hnew).2.2
      [.grid_complexity, .apply ![1, 0, 0, 1] 0, .operator_complexity]
  exact ⟨hw.1, hw.2.1⟩

/-- The complexities of an operator whose direct solver is set and preconditioner unset. -/
theorem direct_complexities_of_solver {m n : Nat} (op : DealIIDirectOperator m n)
    (S : solver_type m n) (h1 : op._solver = some S) (h2 : op._smoother = none) :
    op.grid_complexity = .ok op._m ∧ op.operator_complexity = .ok op._nnz := by
  constructor
  · simp [DealIIDirectOperator.grid_complexity, DealIIDirectOperator.check_state, ASSERT, h1, h2,
      DealIIDirectOperator.m]
  · simp [DealIIDirectOperator.operator_complexity, DealIIDirectOperator.check_state, ASSERT,
      h1, h2]

/-- C7: when the lower-cased configured `coarse.type` is `""` (also: key absent, null
configuration handle) or `"direct"`, construction returns an operator whose `grid_complexity()`
is the row count of `A` and whose `operator_complexity()` is the nonzero count of `A`, the
values captured in `_m` and `_nnz` at construction. -/
theorem direct_complexities {m n : Nat} (L : CoarseLibrary m n) (A : matrix_type m n)
    (params : Option ptree)
    (h : tolower (configured_coarse_type params) = ""
      ∨ tolower (configured_coarse_type params) = "direct") :
    ∃ op, DealIIDirectOperator.new L A params = .ok op
      ∧ op._m = A.m ∧ op._nnz = A.n_nonzero_elements
      ∧ op.grid_complexity = .ok m
      ∧ op.operator_complexity = .ok A.n_nonzero_elements := by
  refine ⟨⟨m, n, A.n_nonzero_elements, some ⟨A, L.SolverDirect A⟩, none⟩, ?_, rfl, rfl, ?_⟩
  · rw [direct_new_eq]
    simp [h]
  · exact direct_complexities_of_solver _ _ rfl rfl

/-- The 4×4 model matrix has ten nonzero entries. -/
theorem tridiag4_nnz : tridiag4.n_nonzero_elements = 10 := by
  decide

/-- Witness of C7: without a configuration object the operator on the 4×4 model matrix reports
grid complexity 4 and operator complexity 10. -/
theorem direct_complexities_witness :
    ∃ op, DealIIDirectOperator.new (sample_coarse_library 4) tridiag4 none = .ok op
      ∧ op.grid_complexity = .ok 4 ∧ op.operator_complexity = .ok 10 := by
  obtain ⟨op, h1, _, _, h2, h3⟩ := direct_complexities (sample_coarse_library 4) tridiag4 none
    (Or.inl (by decide))
  exact ⟨op, h1, h2, by rw [h3, tridiag4_nnz]⟩

/-- The conversion into `size_t` as an integer. -/
theorem size_t_of_long_long_cast (z : Int) :
    ((size_t_of_long_long z : Nat) : Int) = z % 18446744073709551616 := by
  unfold size_t_of_long_long
  exact Int.toNat_of_nonneg (Int.emod_nonneg z (by decide))

/-- The collective sum of the loop body is the global length of the level. -/
theorem SumAll_eq_global_length {m n : Nat} (ml_operator : MultiLevelPreconditioner m n)
    (i : Nat) :
    ml_operator.SumAll (fun ml => (ml.Amat (ml.LevelID i)).invec_leng)
      = global_length ml_operator i := by
  simp [MultiLevelPreconditioner.SumAll, global_length]

/-- The accumulator of the loop of `grid_complexity()` over a list of level indices, modulo
`2 ^ 64`. -/
theorem grid_complexity_fold {m n : Nat} (ml_operator : MultiLevelPreconditioner m n)
    (l : List Nat) (c : Nat) :
    ((l.foldl (DealIIDirectOperator.grid_complexity_step ml_operator) c : Nat) : Int)
        % 18446744073709551616
      = ((c : Int) + (l.map (global_length ml_operator)).sum) % 18446744073709551616 := by
  induction l generalizing c with
  | nil => simp
  | cons i l ih =>
    rw [List.foldl_cons, ih, List.map_cons, List.sum_cons]
    unfold DealIIDirectOperator.grid_complexity_step
    simp only [size_t_of_long_long_cast, SumAll_eq_global_length]
    omega

/-- The accumulator of the loop of `grid_complexity()` stays below `2 ^ 64`. -/
theorem grid_complexity_fold_lt {m n : Nat} (ml_operator : MultiLevelPreconditioner m n)
    (l : List Nat) (c : Nat) (hc : c < 18446744073709551616) :
    l.foldl (DealIIDirectOperator.grid_complexity_step ml_operator) c
      < 18446744073709551616 := by
  induction l generalizing c with
  | nil => simpa using hc
  | cons i l ih =>
    rw [List.foldl_cons]
    apply ih
    have h := size_t_of_long_long_cast
      ((c : Int) + ml_operator.SumAll (fun ml => (ml.Amat (ml.LevelID i)).invec_leng))
    have h' : ((DealIIDirectOperator.grid_complexity_step ml_operator c i : Nat) : Int)
        = ((c : Int) + ml_operator.SumAll (fun ml => (ml.Amat (ml.LevelID i)).invec_leng))
          % 18446744073709551616 := h
    omega

/-- The value of `grid_complexity()` when the preconditioner is the handle that is set. -/
theorem grid_complexity_of_smoother {m n : Nat} (_m _n _nnz : Nat) (P : PreconditionAMG m n) :
    DealIIDirectOperator.grid_complexity ⟨_m, _n, _nnz, none, some P⟩
      = .ok (size_t_of_long_long (total_length P.trilinos_operator)) := by
  have h1 := grid_complexity_fold P.trilinos_operator
    (List.range P.trilinos_operator.GetML.ML_num_actual_levels.toNat) 0
  have h2 := grid_complexity_fold_lt P.trilinos_operator
    (List.range P.trilinos_operator.GetML.ML_num_actual_levels.toNat) 0 (by decide)
  have h3 := size_t_of_long_long_cast (total_length P.trilinos_operator)
  have h4 : (List.range P.trilinos_operator.GetML.ML_num_actual_levels.toNat).foldl
      (DealIIDirectOperator.grid_complexity_step P.trilinos_operator) 0
      = size_t_of_long_long (total_length P.trilinos_operator) := by
    unfold total_length at h3 ⊢
    omega
  simp only [DealIIDirectOperator.grid_complexity, DealIIDirectOperator.check_state, ASSERT]
  simp only [h4]
  rfl

/-- C6: with the AMG strategy active and the total representable in `size_t`,
`grid_complexity()` is the sum over the level indices `0 ≤ i < ML_num_actual_levels` of the
global length of level `i` (the sum over all workers of the local input-vector length of
`Amat[LevelID[i]]`); with no level the result is 0. -/
theorem grid_complexity_amg {m n : Nat} (_m _n _nnz : Nat) (P : PreconditionAMG m n)
    (h0 : 0 ≤ total_length P.trilinos_operator)
    (h1 : total_length P.trilinos_operator < 18446744073709551616) :
    (∃ k : Nat, DealIIDirectOperator.grid_complexity ⟨_m, _n, _nnz, none, some P⟩ = .ok k
      ∧ (k : Int) = ((List.range P.trilinos_operator.GetML.ML_num_actual_levels.toNat).map
          (fun i => ((P.trilinos_operator.GetML :: P.trilinos_operator.Comm).map
            (fun ml => (ml.Amat (ml.LevelID i)).invec_leng)).sum)).sum)
    ∧ (P.trilinos_operator.GetML.ML_num_actual_levels ≤ 0 →
        DealIIDirectOperator.grid_complexity ⟨_m, _n, _nnz, none, some P⟩ = .ok 0) := by
  have hc := size_t_of_long_long_cast (total_length P.trilinos_operator)
  constructor
  · refine ⟨_, grid_complexity_of_smoother _m _n _nnz P, ?_⟩
    rw [hc, Int.emod_eq_of_lt h0 h1]
    rfl
  · intro hz
    rw [grid_complexity_of_smoother]
    have ht : total_length P.trilinos_operator = 0 := by
      simp [total_length, Int.toNat_eq_zero.mpr hz]
    rw [ht]
    rfl

/-- Witness of C6: three levels on two workers with local lengths 60, 20, 5 and 40, 10, 3 give
the grid complexity 138. -/
theorem grid_complexity_amg_witness :
    DealIIDirectOperator.grid_complexity ⟨4, 4, 10, none, some two_worker_preconditioner⟩
      = .ok 138 := by
  have ht : total_length two_worker_preconditioner.trilinos_operator = 138 := by decide
  obtain ⟨k, hk, hs⟩ := (grid_complexity_amg 4 4 10 two_worker_preconditioner
    (by rw [ht]; decide) (by rw [ht]; decide)).1
  have hs2 : (k : Int) = total_length two_worker_preconditioner.trilinos_operator := hs
  rw [ht] at hs2
  have hk2 : k = 138 := by omega
  rw [hk, hk2]

/-- C9: for Trilinos-backed operators `A` (m × k) and `B` (k × n) and every `x`, applying
`A.multiply(B)` to `x` gives what applying `B` and then `A` gives, null handles included (both
sides are then undefined); with non-null handles `multiply` wraps the product `a * b`, with
`this` on the left, and `apply(x, y)` sets `y = a * x` whatever `y` held. -/
theorem trilinos_multiply_apply {m k n : Nat} (A : DealIITrilinosMatrixOperator m k)
    (B : DealIITrilinosMatrixOperator k n) (a : matrix_type m k) (b : matrix_type k n)
    (x : vector_type n) (x1 : vector_type k) (y : vector_type m) (y1 : vector_type k) :
    (A.multiply B).bind (fun C => C.apply x y)
        = (B.apply x y1).bind (fun bx => A.apply bx y)
    ∧ DealIITrilinosMatrixOperator.multiply ⟨some a⟩ ⟨some b⟩
        = some (⟨some (a * b)⟩ : DealIITrilinosMatrixOperator m n)
    ∧ DealIITrilinosMatrixOperator.apply ⟨some a⟩ x1 y = some (a.mulVec x1)
    ∧ (DealIITrilinosMatrixOperator.multiply ⟨some a⟩ ⟨some b⟩).bind (fun C => C.apply x y)
        = some (a.mulVec (b.mulVec x)) := by
  refine ⟨?_, rfl, rfl, ?_⟩
  · obtain ⟨ha⟩ := A
    obtain ⟨hb⟩ := B
    cases ha <;> cases hb <;>
      simp [DealIITrilinosMatrixOperator.multiply, DealIITrilinosMatrixOperator.apply,
        DealIITrilinosMatrixOperator.get_matrix, matrix_type.vmult, matrix_type.mmult]
  · simp [DealIITrilinosMatrixOperator.multiply, DealIITrilinosMatrixOperator.apply,
      DealIITrilinosMatrixOperator.get_matrix, matrix_type.vmult, matrix_type.mmult]

/-- C10, the code at the failing input: the constructor of the Trilinos-backed operator
returns an operator whose matrix handle is null when it is given a null matrix handle (its
`apply` is then undefined), whereas the constructor of the deal.II-backed operator rejects a
null matrix handle and a null sparsity pattern. -/
theorem trilinos_new_accepts_null_matrix :
    DealIITrilinosMatrixOperator.new (none : Option (matrix_type 4 4)) none = .ok ⟨none⟩
    ∧ DealIITrilinosMatrixOperator.new (none : Option (matrix_type 4 4)) (some ⟨[]⟩)
        = .ok ⟨none⟩
    ∧ DealIITrilinosMatrixOperator.apply (⟨none⟩ : DealIITrilinosMatrixOperator 4 4)
        ![1, 0, 0, 1] 0 = none
    ∧ DealIIMatrixOperator.new (none : Option (matrix_type 4 4)) (some ⟨[]⟩)
        = .error (.PreconditionViolation "The matrix must exist")
    ∧ DealIIMatrixOperator.new (some tridiag4) none
        = .error (.PreconditionViolation "deal.II matrices require a sparsity pattern")
    ∧ DealIIMatrixOperator.new (some tridiag4) (some ⟨[]⟩) = .ok ⟨some ⟨[]⟩, some tridiag4⟩ :=
  ⟨rfl, rfl, rfl, rfl, rfl, rfl⟩

end mfmg
